import Mathlib

/-!
# Verification of the NetCDF → SWAN SP2 converter

A shallow embedding of `src/netcdf_to_sp2.py` (the whole repository) and
proofs about it.  Energy samples are modelled as `Option ℚ` (`none` = NaN),
all other numeric values as `ℚ`; the text the converter writes is modelled
as `String`s built from explicit character lists, so that every formatting
rule of the SP2 encoding is visible to the proofs.
-/

namespace EAOWS

/-! ## Decimal digit printing

`natDigits n` is the decimal representation of `n`, fuel-based exactly like
the printing loop of the runtime (`f"{n:d}"` / `str(n)` in the source's
f-strings): least-significant digit first into an accumulator.
-/

/-- The character for a single decimal digit. -/
def digitChar (d : Nat) : Char := Char.ofNat (48 + d)

/-- Fuel-based decimal digit loop (most significant digit first in the result). -/
def natDigitsAux : Nat → Nat → List Char → List Char
  | 0, _, acc => acc
  | fuel + 1, n, acc =>
      if n < 10 then digitChar n :: acc
      else natDigitsAux fuel (n / 10) (digitChar (n % 10) :: acc)

/-- Decimal digits of `n`, no padding, no sign. -/
def natDigits (n : Nat) : List Char := natDigitsAux (n + 1) n []

/-- Exactly `k` decimal digits of `n` (the last `k`, left-padded with zeros):
the fixed-width digit fields of the Python format specs. -/
def fixedDigits : Nat → Nat → List Char
  | 0, _ => []
  | k + 1, n => fixedDigits k (n / 10) ++ [digitChar (n % 10)]

/-- Numeric value of a digit string (fold as in ordinary decimal parsing). -/
def valOfDigits (l : List Char) : Nat :=
  l.foldl (fun a c => 10 * a + (c.toNat - 48)) 0

/-! ## Rounding

`np.round` rounds to the nearest integer with ties going to the even
integer (round-half-to-even).  `roundHalfEven` is its model on `ℚ`.
-/

/-- Round to nearest, ties to even (the semantics of `np.round` on line 171). -/
def roundHalfEven (q : ℚ) : ℤ :=
  if q - ⌊q⌋ < 1 / 2 then ⌊q⌋
  else if 1 / 2 < q - ⌊q⌋ then ⌊q⌋ + 1
  else if ⌊q⌋ % 2 = 0 then ⌊q⌋ else ⌊q⌋ + 1

/-! ## Python numeric formatting on `ℚ`

Models of the format specs the converter uses: `{n:6d}` (minimum-width
right-justified integer), `{x:10.4f}` (fixed point, 4 decimals, minimum
width 10), `{x:.16e}` / `{x:10.4e}` (scientific notation with a fixed
number of digits after the decimal point).
-/

/-- Right-justify a character list to a minimum width with spaces
(Python pads only when the content is shorter than the width). -/
def padLeft (w : Nat) (l : List Char) : List Char :=
  List.replicate (w - l.length) ' ' ++ l

/-- Decimal representation of an integer: optional minus sign, then digits. -/
def intChars (n : ℤ) : List Char :=
  (if n < 0 then ['-'] else []) ++ natDigits n.natAbs

/-- `f"{n:wd}"`: integer right-justified to minimum width `w`. -/
def formatIntW (w : Nat) (n : ℤ) : String := ⟨padLeft w (intChars n)⟩

/-- Read back the integer in the leading 6-character count field of a header
line: take the field, skip the padding spaces, parse an optional sign and
the digits.  (A measuring tool for the proofs, not part of the converter.) -/
def parseIntField (s : String) : ℤ :=
  let t := (s.data.take 6).dropWhile (fun c => c == ' ')
  if t.head? = some '-' then -(valOfDigits (t.drop 1) : ℤ) else (valOfDigits t : ℤ)

/-- Exponent field of Python scientific notation: sign, then at least two digits. -/
def expChars (e : ℤ) : List Char :=
  (if e < 0 then ['-'] else ['+']) ++
    (if e.natAbs < 10 then ['0', digitChar e.natAbs] else natDigits e.natAbs)

/-- `f"{q:.prec e}"`: scientific notation with one leading mantissa digit and
exactly `prec` digits after the decimal point, as a character list. -/
def sciChars (prec : Nat) (q : ℚ) : List Char :=
  let sgn : List Char := if q < 0 then ['-'] else []
  let a : ℚ := |q|
  let e : ℤ := if a = 0 then 0 else Int.log 10 a
  let m0 : ℤ := roundHalfEven (a * (10 : ℚ) ^ ((prec : ℤ) - e))
  let me : ℤ × ℤ := if m0 < 10 ^ (prec + 1) then (m0, e) else (m0 / 10, e + 1)
  let ds : List Char := fixedDigits (prec + 1) me.1.toNat
  sgn ++ ds.take 1 ++ ['.'] ++ ds.drop 1 ++ ['e'] ++ expChars me.2

/-- `f"{q:.prec e}"` as a string (used for the FACTOR value, line 165). -/
def formatSci (prec : Nat) (q : ℚ) : String := ⟨sciChars prec q⟩

/-- `f"{q:w.prec e}"`: scientific notation right-justified to minimum width `w`
(used for the exception value, line 128). -/
def formatSciW (w prec : Nat) (q : ℚ) : String := ⟨padLeft w (sciChars prec q)⟩

/-- `f"{q:.prec f}"`: fixed-point with `prec` digits after the point. -/
def fixedChars (prec : Nat) (q : ℚ) : List Char :=
  let r : ℤ := roundHalfEven (q * (10 : ℚ) ^ prec)
  (if q < 0 then ['-'] else []) ++ natDigits (r.natAbs / 10 ^ prec) ++ ['.'] ++
    fixedDigits prec (r.natAbs % 10 ^ prec)

/-- `f"{q:w.prec f}"`: fixed-point right-justified to minimum width `w`
(used for coordinates, frequencies and directions). -/
def formatFixedW (w prec : Nat) (q : ℚ) : String := ⟨padLeft w (fixedChars prec q)⟩

/-- Number of digits appearing before the exponent marker `e` in a formatted
number: its count of significant (mantissa) digits as printed. -/
def mantissaDigitCount (s : String) : Nat :=
  ((s.data.takeWhile (fun c => c != 'e')).filter Char.isDigit).length

/-! ## Time formatting

`format_swan_time` (lines 71–83): `np.datetime_as_string(nptime, unit="s")`
renders a timestamp as `YYYY-MM-DDTHH:MM:SS`, truncating (flooring) any
sub-second component; the function then splits at `T`, strips `-` and `:`
and joins the two halves with a period.
-/

/-- A timestamp: calendar fields plus a (possibly fractional) second count,
modelling a `numpy.datetime64` of sub-second precision. -/
structure DateTime where
  year : Nat
  month : Nat
  day : Nat
  hour : Nat
  minute : Nat
  second : ℚ
deriving DecidableEq, Inhabited

/-- `np.datetime_as_string(·, unit="s")`: seconds resolution, so the second
field is floored (numpy truncates when casting to a coarser unit). -/
def datetime_as_string_s (t : DateTime) : List Char :=
  fixedDigits 4 t.year ++ ['-'] ++ fixedDigits 2 t.month ++ ['-'] ++ fixedDigits 2 t.day ++
    ['T'] ++ fixedDigits 2 t.hour ++ [':'] ++ fixedDigits 2 t.minute ++ [':'] ++
    fixedDigits 2 (⌊t.second⌋).toNat

/-- Lines 71–83 of the source: SWAN time format `YYYYMMDD.HHMMSS`. -/
def format_swan_time (t : DateTime) : String :=
  let dt := datetime_as_string_s t
  let date := dt.takeWhile (fun c => c != 'T')
  let time := (dt.dropWhile (fun c => c != 'T')).drop 1
  ⟨date.filter (fun c => c != '-')⟩ ++ "." ++ ⟨time.filter (fun c => c != ':')⟩

/-! ## Data model -/

/-- The configuration surface of the converter (the `CONFIG` dict), minus the
pure-I/O entries (paths, log file). -/
structure OutputConfig where
  exception_value : ℚ
  swan_version : String
  project_name : String
  run_number : String
  overwrite : Bool
deriving DecidableEq

/-- The arrays the converter reads from a NetCDF dataset.  An energy sample is
`Option ℚ`: `none` models NaN/null.  `factor` is `none` when the dataset has
no `factor` variable (it then defaults to 1.0 everywhere, line 146). -/
structure SpectralDataset where
  longitude : List ℚ
  latitude : List ℚ
  frequency : List ℚ
  direction : List ℚ
  time : List DateTime
  energy_density : List (List (List (List (Option ℚ))))
  factor : Option (List (List ℚ))
deriving DecidableEq

/-- A NetCDF file as seen by `validate_netcdf`: the set of variable names it
declares, and the dataset payload. -/
structure NCFile where
  vars : List String
  ds : SpectralDataset
deriving DecidableEq

/-! ## Validation (lines 53–69) -/

/-- The `required_vars` list of `validate_netcdf`. -/
def required_vars : List String :=
  ["longitude", "latitude", "frequency", "direction", "energy_density", "time"]

/-- The first required variable missing from the file: the one
`validate_netcdf` logs before returning `False` (`none` when all present). -/
def firstMissing (nc : NCFile) : Option String :=
  required_vars.find? (fun v => !(nc.vars.contains v))

/-- `validate_netcdf`: `True` iff every required variable is present. -/
def validate_netcdf (nc : NCFile) : Bool := (firstMissing nc).isNone

/-! ## Header (lines 85–128) -/

/-- Line 105: location count, 6-wide, plus its fixed comment. -/
def locCountLine (n : Nat) : String :=
  formatIntW 6 n ++ "                                  number of locations"

/-- Line 113: frequency count, 6-wide, plus its fixed comment. -/
def freqCountLine (n : Nat) : String :=
  formatIntW 6 n ++ "                                  number of frequencies"

/-- Line 119: direction count, 6-wide, plus its fixed comment. -/
def dirCountLine (n : Nat) : String :=
  formatIntW 6 n ++ "                                  number of directions"

/-- Line 109: one coordinate pair per location. -/
def coordLine (lon lat : ℚ) : String :=
  formatFixedW 10 4 lon ++ " " ++ formatFixedW 10 4 lat

/-- Line 125: the fixed quantity-count line of the QUANT block. -/
def quantCountLine : String :=
  "     1                                  number of quantities in table"

/-- Line 128: the exception value, `{:10.4e}`, plus its fixed comment. -/
def exceptionLine (cfg : OutputConfig) : String :=
  formatSciW 10 4 cfg.exception_value ++ "                          exception value"

/-- `write_sp2_header` (lines 85–128), one list entry per written line. -/
def write_sp2_header (cfg : OutputConfig) (ds : SpectralDataset) (nloc : Nat) :
    List String :=
  ["SWAN   1                                Swan standard spectral file, version",
   "$   Data produced by SWAN version " ++ cfg.swan_version,
   "$   Project: " ++ cfg.project_name ++ "        ;  run number: " ++ cfg.run_number,
   "TIME                                    time-dependent data",
   "     1                                  time coding option",
   "LONLAT                                  locations in spherical coordinates",
   locCountLine nloc] ++
  (List.zip ds.longitude ds.latitude).map (fun p => coordLine p.1 p.2) ++
  ["AFREQ                                   absolute frequencies in Hz",
   freqCountLine ds.frequency.length] ++
  ds.frequency.map (fun fr => formatFixedW 10 4 fr) ++
  ["NDIR                                    spectral nautical directions in degr",
   dirCountLine ds.direction.length] ++
  ds.direction.map (fun d => formatFixedW 10 4 d) ++
  ["QUANT",
   quantCountLine,
   "EnDens                                  energy densities in J/m2/Hz/degr",
   "J/m2/Hz/degr                            unit",
   exceptionLine cfg]

/-! ## Body (lines 157–173) -/

/-- Line 170: `np.nan_to_num(row, nan=0.0)` on one sample: NaN becomes 0.0. -/
def nan_to_num (v : Option ℚ) : ℚ := v.getD 0

/-- Lines 170–171 on one sample: NaN→0.0, then `np.round(…).astype(int)`. -/
def encodeSample (v : Option ℚ) : ℤ := roundHalfEven (nan_to_num v)

/-- Line 172: one matrix row, each value `{:6d}`, joined by single spaces. -/
def rowLine (row : List (Option ℚ)) : String :=
  String.intercalate " " (row.map (fun v => formatIntW 6 (encodeSample v)))

/-- Line 146: the factor for `(t, p)`: the dataset's `factor` array when
present, otherwise the synthesized array of ones. -/
def factorAt (ds : SpectralDataset) (t p : Nat) : ℚ :=
  match ds.factor with
  | some fs => (fs.getD t []).getD p 0
  | none => 1

/-- `energy[t_idx, p_idx, fr_idx, :]` (line 169). -/
def energyRow (ds : SpectralDataset) (t p fr : Nat) : List (Option ℚ) :=
  ((ds.energy_density.getD t []).getD p []).getD fr []

/-- Lines 163–173: the data block for one `(timestep, location)` pair:
`FACTOR` tag, factor value, one row per frequency. -/
def locBlock (ds : SpectralDataset) (t p : Nat) : List String :=
  "FACTOR" :: formatSci 16 (factorAt ds t p) ::
    (List.range ds.frequency.length).map (fun fr => rowLine (energyRow ds t p fr))

/-- The per-location blocks of one timestep (`for p_idx in range(nloc)`). -/
def locBlocks (ds : SpectralDataset) (t : Nat) : List (List String) :=
  (List.range ds.longitude.length).map (fun p => locBlock ds t p)

/-- Line 160: the timestamp line of a timestep. -/
def timeLine (t : DateTime) : String :=
  format_swan_time t ++ "                         date and time"

/-- Lines 158–173: one timestep: timestamp line then each location's block. -/
def timeBlock (ds : SpectralDataset) (t : Nat) : List String :=
  timeLine (ds.time.getD t default) :: (locBlocks ds t).flatten

/-- All lines `convert_netcdf_to_sp2` writes: header then every timestep. -/
def sp2Lines (cfg : OutputConfig) (ds : SpectralDataset) : List String :=
  write_sp2_header cfg ds ds.longitude.length ++
    ((List.range ds.time.length).map (fun t => timeBlock ds t)).flatten

/-- The byte content of the output file (each line is written with `"\n"`). -/
def sp2Content (cfg : OutputConfig) (ds : SpectralDataset) : String :=
  String.join ((sp2Lines cfg ds).map (fun l => l ++ "\n"))

/-! ## The write loop with its exception path

`numpy` raises `IndexError` when `factors[t_idx, p_idx]` (line 165) or
`energy[t_idx, p_idx, fr_idx, :]` (line 169) is out of bounds; the
`except` at line 177 catches it, the function returns `False`, and the
lines already written stay in the (partial) output file.  The fallible
accesses return `Option`; the writers below emit lines until the first
failing access.
-/

/-- `factors[t_idx, p_idx]` as a fallible access (`np.ones` never fails). -/
def factorAt? (ds : SpectralDataset) (t p : Nat) : Option ℚ :=
  match ds.factor with
  | some fs => (fs[t]?).bind (fun r => r[p]?)
  | none => some 1

/-- `energy[t_idx, p_idx, fr_idx, :]` as a fallible access. -/
def energyRow? (ds : SpectralDataset) (t p fr : Nat) : Option (List (Option ℚ)) :=
  (ds.energy_density[t]?).bind (fun a => (a[p]?).bind (fun b => b[fr]?))

/-- The `for fr_idx in range(len(ds.frequency))` loop (lines 168–173): one
row line per index until an access fails. -/
def writeRows (ds : SpectralDataset) (t p : Nat) : List Nat → Bool × List String
  | [] => (true, [])
  | fr :: frs =>
      match energyRow? ds t p fr with
      | none => (false, [])
      | some row =>
          let rest := writeRows ds t p frs
          (rest.1, rowLine row :: rest.2)

/-- Lines 163–173 for one location: the `FACTOR` tag is written before the
factor access is evaluated, so a failing access leaves just the tag line. -/
def writeLoc (ds : SpectralDataset) (t p : Nat) : Bool × List String :=
  match factorAt? ds t p with
  | none => (false, ["FACTOR"])
  | some q =>
      let rows := writeRows ds t p (List.range ds.frequency.length)
      (rows.1, "FACTOR" :: formatSci 16 q :: rows.2)

/-- The `for p_idx in range(nloc)` loop (lines 162–173). -/
def writeLocs (ds : SpectralDataset) (t : Nat) : List Nat → Bool × List String
  | [] => (true, [])
  | p :: ps =>
      let blk := writeLoc ds t p
      if blk.1 then
        let rest := writeLocs ds t ps
        (rest.1, blk.2 ++ rest.2)
      else (false, blk.2)

/-- The `for t_idx in range(len(ds.time))` loop (lines 158–173). -/
def writeTimes (ds : SpectralDataset) : List Nat → Bool × List String
  | [] => (true, [])
  | t :: ts =>
      let blk := writeLocs ds t (List.range ds.longitude.length)
      if blk.1 then
        let rest := writeTimes ds ts
        (rest.1, (timeLine (ds.time.getD t default) :: blk.2) ++ rest.2)
      else (false, timeLine (ds.time.getD t default) :: blk.2)

/-- Everything the `with open(...)` block manages to write, and whether the
write loop ran to completion without an indexing exception. -/
def sp2LinesOut (cfg : OutputConfig) (ds : SpectralDataset) : Bool × List String :=
  let body := writeTimes ds (List.range ds.time.length)
  (body.1, write_sp2_header cfg ds ds.longitude.length ++ body.2)

/-- Shape consistency: every access the write loop performs is in bounds
(the `energy.shape` / `factor.shape` invariant of a valid dataset).  A
field-complete dataset violating it makes the program raise mid-write. -/
def shapeOk (ds : SpectralDataset) : Bool :=
  (List.range ds.time.length).all (fun t =>
    (List.range ds.longitude.length).all (fun p =>
      (factorAt? ds t p).isSome &&
        (List.range ds.frequency.length).all (fun fr =>
          (energyRow? ds t p fr).isSome)))

/-! ## Filesystem effects and the batch driver (lines 130–224) -/

/-- The filesystem operations `convert_netcdf_to_sp2` can perform. -/
inductive FSEffect where
  | mkdir (path : String)
  | writeFile (path : String) (content : String)
deriving DecidableEq

/-- `os.path.dirname`. -/
def dirOf (p : String) : String :=
  String.intercalate "/" (p.splitOn "/").dropLast

/-- `convert_netcdf_to_sp2` (lines 130–179): validation happens first; only
when it succeeds are the output directory created and the file opened.  The
returned `Bool` is the function's return value, the list the filesystem
operations it performed, in order.  When an indexing exception interrupts
the write loop, the `except` at line 177 turns it into `False`, with the
partially written file left on disk. -/
def convert_netcdf_to_sp2 (cfg : OutputConfig) (nc : NCFile) (output_path : String) :
    Bool × List FSEffect :=
  if validate_netcdf nc then
    let out := sp2LinesOut cfg nc.ds
    (out.1, [FSEffect.mkdir (dirOf output_path),
             FSEffect.writeFile output_path
               (String.join (out.2.map (fun l => l ++ "\n")))])
  else
    (false, [])

/-- `os.path.splitext(name)[0] + ".sp2"` inside `os.path.join` (lines 205–208). -/
def outPath (output_dir name : String) : String :=
  let parts := name.splitOn "."
  let stem := if parts.length ≤ 1 then name else String.intercalate "." parts.dropLast
  output_dir ++ "/" ++ stem ++ ".sp2"

/-- One input file of a batch run. -/
structure ConvFile where
  name : String
  nc : NCFile
deriving DecidableEq

/-- The conversion loop of `main` (lines 203–217) on a fresh output directory
(no pre-existing outputs, so the overwrite guard never triggers): every file
is attempted regardless of earlier failures; the result is the success count
and all filesystem operations in order. -/
def process_batch (cfg : OutputConfig) (output_dir : String) (files : List ConvFile) :
    Nat × List FSEffect :=
  let results := files.map
    (fun fi => convert_netcdf_to_sp2 cfg fi.nc (outPath output_dir fi.name))
  ((results.filter (fun r => r.1)).length, (results.map (fun r => r.2)).flatten)

/-! ## Lemmas: digit printing, rounding, mantissa digit counts -/

theorem digitChar_toNat : ∀ d, d < 10 → (digitChar d).toNat = 48 + d := by decide

theorem digitChar_isDigit : ∀ d, d < 10 → (digitChar d).isDigit = true := by decide

theorem natDigitsAux_acc (fuel : Nat) : ∀ (n : Nat) (acc : List Char),
    natDigitsAux fuel n acc = natDigitsAux fuel n [] ++ acc := by
  induction fuel with
  | zero => intro n acc; simp [natDigitsAux]
  | succ fuel ih =>
      intro n acc
      simp only [natDigitsAux]
      by_cases h : n < 10
      · simp [h]
      · simp only [h, if_false]
        rw [ih (n / 10) (digitChar (n % 10) :: acc),
            ih (n / 10) [digitChar (n % 10)]]
        simp

theorem natDigitsAux_succ_ge (fuel n : Nat) (acc : List Char) (h : ¬ n < 10) :
    natDigitsAux (fuel + 1) n acc =
      natDigitsAux fuel (n / 10) (digitChar (n % 10) :: acc) := by
  simp [natDigitsAux, h]

theorem natDigitsAux_fuel (n : Nat) : ∀ (fuel : Nat), n < fuel →
    natDigitsAux fuel n [] = natDigits n := by
  induction n using Nat.strong_induction_on with
  | _ n ih =>
    intro fuel h
    match fuel, h with
    | fuel + 1, h =>
      by_cases h10 : n < 10
      · simp [natDigitsAux, natDigits, h10]
      · have hlt : n / 10 < n := Nat.div_lt_self (by omega) (by omega)
        have hL : natDigitsAux (fuel + 1) n [] =
            natDigits (n / 10) ++ [digitChar (n % 10)] := by
          rw [natDigitsAux_succ_ge fuel n [] h10, natDigitsAux_acc,
              ih (n / 10) hlt fuel (by omega)]
        have hR : natDigits n = natDigits (n / 10) ++ [digitChar (n % 10)] := by
          rw [natDigits, natDigitsAux_succ_ge n n [] h10, natDigitsAux_acc,
              ih (n / 10) hlt n (by omega)]
        rw [hL, hR]

theorem natDigits_ge_ten {n : Nat} (h : ¬ n < 10) :
    natDigits n = natDigits (n / 10) ++ [digitChar (n % 10)] := by
  have h1 : n / 10 < n := Nat.div_lt_self (by omega) (by omega)
  rw [natDigits, natDigitsAux_succ_ge n n [] h, natDigitsAux_acc,
      natDigitsAux_fuel (n / 10) n h1]

theorem natDigits_lt_ten {n : Nat} (h : n < 10) : natDigits n = [digitChar n] := by
  simp [natDigits, natDigitsAux, h]

theorem natDigits_all_digit (n : Nat) : ∀ c ∈ natDigits n, c.isDigit = true := by
  induction n using Nat.strong_induction_on with
  | _ n ih =>
    by_cases h : n < 10
    · rw [natDigits_lt_ten h]
      intro c hc
      simp at hc
      subst hc
      exact digitChar_isDigit n h
    · rw [natDigits_ge_ten h]
      intro c hc
      rcases List.mem_append.1 hc with h1 | h1
      · exact ih (n / 10) (Nat.div_lt_self (by omega) (by omega)) c h1
      · simp at h1
        subst h1
        exact digitChar_isDigit (n % 10) (Nat.mod_lt n (by omega))

theorem valOfDigits_append_one (l : List Char) (c : Char) :
    valOfDigits (l ++ [c]) = 10 * valOfDigits l + (c.toNat - 48) := by
  simp [valOfDigits, List.foldl_append]

theorem valOfDigits_natDigits (n : Nat) : valOfDigits (natDigits n) = n := by
  induction n using Nat.strong_induction_on with
  | _ n ih =>
    by_cases h : n < 10
    · rw [natDigits_lt_ten h]
      simp [valOfDigits, digitChar_toNat n h]
    · rw [natDigits_ge_ten h, valOfDigits_append_one,
          ih (n / 10) (Nat.div_lt_self (by omega) (by omega)),
          digitChar_toNat (n % 10) (Nat.mod_lt n (by omega))]
      omega

theorem natDigits_ne_nil (n : Nat) : natDigits n ≠ [] := by
  by_cases h : n < 10
  · rw [natDigits_lt_ten h]; simp
  · rw [natDigits_ge_ten h]; simp

theorem natDigits_length_le (k : Nat) : ∀ n, n < 10 ^ k →
    (natDigits n).length ≤ max 1 k := by
  induction k with
  | zero =>
      intro n h
      interval_cases n
      simp [natDigits_lt_ten]
  | succ k ih =>
      intro n h
      by_cases h10 : n < 10
      · rw [natDigits_lt_ten h10]; simp
      · have hdiv : n / 10 < 10 ^ k := by
          rw [Nat.div_lt_iff_lt_mul (by omega)]
          calc n < 10 ^ (k + 1) := h
          _ = 10 ^ k * 10 := by ring
        have hk : 1 ≤ k := by
          by_contra hk
          interval_cases k
          simp at hdiv
          omega
        have := ih (n / 10) hdiv
        rw [natDigits_ge_ten h10]
        simp only [List.length_append, List.length_cons, List.length_nil]
        omega

theorem fixedDigits_length (k : Nat) : ∀ n, (fixedDigits k n).length = k := by
  induction k with
  | zero => intro n; simp [fixedDigits]
  | succ k ih => intro n; simp [fixedDigits, ih]

theorem fixedDigits_all_digit (k : Nat) : ∀ n, ∀ c ∈ fixedDigits k n, c.isDigit = true := by
  induction k with
  | zero => intro n c hc; simp [fixedDigits] at hc
  | succ k ih =>
      intro n c hc
      simp only [fixedDigits] at hc
      rcases List.mem_append.1 hc with h1 | h1
      · exact ih (n / 10) c h1
      · simp at h1
        subst h1
        exact digitChar_isDigit (n % 10) (Nat.mod_lt n (by omega))

theorem roundHalfEven_intCast (n : ℤ) : roundHalfEven (n : ℚ) = n := by
  simp [roundHalfEven]

theorem abs_roundHalfEven_sub_le (q : ℚ) : |(roundHalfEven q : ℚ) - q| ≤ 1 / 2 := by
  have h0 : (⌊q⌋ : ℚ) ≤ q := Int.floor_le q
  have h1 : q < ⌊q⌋ + 1 := Int.lt_floor_add_one q
  unfold roundHalfEven
  split_ifs with hlt hgt heven <;>
    (rw [abs_le]; constructor <;> push_cast <;> linarith)

theorem roundHalfEven_tie_even (q : ℚ) (h : q - (⌊q⌋ : ℚ) = 1 / 2) :
    roundHalfEven q % 2 = 0 := by
  unfold roundHalfEven
  rw [h]
  simp only [lt_irrefl, if_false]
  split_ifs with heven
  · exact heven
  · omega

theorem takeWhile_append_all {α : Type} (p : α → Bool) (l₁ l₂ : List α)
    (h : ∀ c ∈ l₁, p c = true) :
    (l₁ ++ l₂).takeWhile p = l₁ ++ l₂.takeWhile p := by
  induction l₁ with
  | nil => simp
  | cons c l ih =>
      have hc := h c (by simp)
      simp only [List.cons_append, List.takeWhile_cons, hc, if_true]
      rw [ih (fun d hd => h d (by simp [hd]))]

theorem isDigit_ne_e {c : Char} (h : c.isDigit = true) : c ≠ 'e' := by
  intro he
  subst he
  exact absurd h (by decide)

/-- Every `sciChars` output is a sign, a mantissa `d.d…d` built from a
fixed-width digit block of length `prec + 1`, the marker `e`, and an exponent. -/
theorem sciChars_shape (prec : Nat) (q : ℚ) :
    ∃ (sgn : List Char) (m : Nat) (e : ℤ),
      sciChars prec q =
        sgn ++ (fixedDigits (prec + 1) m).take 1 ++ ['.'] ++
          (fixedDigits (prec + 1) m).drop 1 ++ ['e'] ++ expChars e ∧
        (sgn = [] ∨ sgn = ['-']) := by
  refine ⟨if q < 0 then ['-'] else [], _, _, rfl, ?_⟩
  split_ifs <;> simp

/-- Counting the digits that precede the exponent marker in a (possibly
space-padded) scientific-notation string. -/
theorem countDigits_replicate_sci (k prec : Nat) (q : ℚ) :
    (((List.replicate k ' ' ++ sciChars prec q).takeWhile
        (fun c => c != 'e')).filter Char.isDigit).length = prec + 1 := by
  obtain ⟨sgn, m, e, hshape, hsgn⟩ := sciChars_shape prec q
  rw [hshape]
  have hassoc :
      List.replicate k ' ' ++ (sgn ++ (fixedDigits (prec + 1) m).take 1 ++ ['.'] ++
          (fixedDigits (prec + 1) m).drop 1 ++ ['e'] ++ expChars e) =
        (List.replicate k ' ' ++ sgn ++ (fixedDigits (prec + 1) m).take 1 ++ ['.'] ++
          (fixedDigits (prec + 1) m).drop 1) ++ ('e' :: expChars e) := by
    simp [List.append_assoc]
  rw [hassoc, takeWhile_append_all]
  · have h1 : List.takeWhile (fun c => c != 'e') ('e' :: expChars e) = [] := by
      simp [List.takeWhile_cons]
    rw [h1]
    have hsp : (List.replicate k ' ').filter Char.isDigit = [] := by
      rw [List.filter_eq_nil_iff]
      intro c hc
      rw [List.eq_of_mem_replicate hc]
      decide
    have hsg : sgn.filter Char.isDigit = [] := by
      rcases hsgn with h | h <;> subst h <;> decide
    have htk : ((fixedDigits (prec + 1) m).take 1).filter Char.isDigit =
        (fixedDigits (prec + 1) m).take 1 := by
      rw [List.filter_eq_self]
      intro c hc
      exact fixedDigits_all_digit _ m c (List.mem_of_mem_take hc)
    have hdr : ((fixedDigits (prec + 1) m).drop 1).filter Char.isDigit =
        (fixedDigits (prec + 1) m).drop 1 := by
      rw [List.filter_eq_self]
      intro c hc
      exact fixedDigits_all_digit _ m c (List.mem_of_mem_drop hc)
    have hdot : List.filter Char.isDigit ['.'] = [] := by decide
    simp only [List.filter_append, List.append_nil, hsp, hsg, htk, hdr, hdot,
      List.nil_append, List.append_assoc]
    rw [List.take_append_drop, fixedDigits_length]
  · intro c hc
    rw [bne_iff_ne]
    simp only [List.append_assoc, List.mem_append] at hc
    rcases hc with h | h | h | h | h
    · rw [List.eq_of_mem_replicate h]; decide
    · rcases hsgn with hs | hs <;> subst hs <;> simp at h
      subst h; decide
    · exact isDigit_ne_e (fixedDigits_all_digit _ m c (List.mem_of_mem_take h))
    · simp at h; subst h; decide
    · exact isDigit_ne_e (fixedDigits_all_digit _ m c (List.mem_of_mem_drop h))

/-- The factor field `f"{q:.16e}"` always shows exactly `prec + 1` mantissa digits. -/
theorem mantissaDigitCount_formatSci (prec : Nat) (q : ℚ) :
    mantissaDigitCount (formatSci prec q) = prec + 1 := by
  have := countDigits_replicate_sci 0 prec q
  simpa [mantissaDigitCount, formatSci] using this

/-- The padded form `f"{q:w.prec e}"` also shows exactly `prec + 1` mantissa digits
(the padding is spaces, which are not digits). -/
theorem mantissaDigitCount_formatSciW (w prec : Nat) (q : ℚ) :
    mantissaDigitCount (formatSciW w prec q) = prec + 1 := by
  have := countDigits_replicate_sci (w - (sciChars prec q).length) prec q
  simpa [mantissaDigitCount, formatSciW, padLeft] using this

theorem dropWhile_append_all {α : Type} (p : α → Bool) (l₁ l₂ : List α)
    (h : ∀ c ∈ l₁, p c = true) :
    (l₁ ++ l₂).dropWhile p = l₂.dropWhile p := by
  induction l₁ with
  | nil => simp
  | cons c l ih =>
      have hc := h c (by simp)
      simp only [List.cons_append, List.dropWhile_cons, hc, if_true]
      exact ih (fun d hd => h d (by simp [hd]))

theorem isDigit_ne_of {c x : Char} (h : c.isDigit = true) (hx : x.isDigit = false) :
    c ≠ x := by
  intro he
  subst he
  rw [h] at hx
  cases hx

theorem filter_ne_of_all_digit (x : Char) (hx : x.isDigit = false) (l : List Char)
    (hl : ∀ c ∈ l, c.isDigit = true) : l.filter (fun c => c != x) = l := by
  rw [List.filter_eq_self]
  intro c hc
  rw [bne_iff_ne]
  exact isDigit_ne_of (hl c hc) hx

/-- The SWAN timestamp is the three date fields, a period, then the three
time fields, with the second floored (sub-seconds truncated). -/
theorem format_swan_time_eq (t : DateTime) :
    format_swan_time t =
      (⟨fixedDigits 4 t.year ++ fixedDigits 2 t.month ++ fixedDigits 2 t.day⟩ : String)
        ++ "." ++
      ⟨fixedDigits 2 t.hour ++ fixedDigits 2 t.minute ++
        fixedDigits 2 (⌊t.second⌋).toNat⟩ := by
  have hdt : datetime_as_string_s t =
      (fixedDigits 4 t.year ++ ['-'] ++ fixedDigits 2 t.month ++ ['-'] ++
        fixedDigits 2 t.day) ++
      ('T' :: (fixedDigits 2 t.hour ++ [':'] ++ fixedDigits 2 t.minute ++ [':'] ++
        fixedDigits 2 (⌊t.second⌋).toNat)) := by
    simp [datetime_as_string_s, List.append_assoc]
  have hdate : ∀ c ∈ fixedDigits 4 t.year ++ ['-'] ++ fixedDigits 2 t.month ++ ['-'] ++
      fixedDigits 2 t.day, (c != 'T') = true := by
    intro c hc
    rw [bne_iff_ne]
    simp only [List.append_assoc, List.mem_append] at hc
    rcases hc with h | h | h | h | h
    · exact isDigit_ne_of (fixedDigits_all_digit _ _ c h) (by decide)
    · simp at h; subst h; decide
    · exact isDigit_ne_of (fixedDigits_all_digit _ _ c h) (by decide)
    · simp at h; subst h; decide
    · exact isDigit_ne_of (fixedDigits_all_digit _ _ c h) (by decide)
  simp only [format_swan_time]
  rw [hdt, takeWhile_append_all _ _ _ hdate, dropWhile_append_all _ _ _ hdate]
  have h1 : List.takeWhile (fun c => c != 'T')
      ('T' :: (fixedDigits 2 t.hour ++ [':'] ++ fixedDigits 2 t.minute ++ [':'] ++
        fixedDigits 2 (⌊t.second⌋).toNat)) = [] := by
    simp [List.takeWhile_cons]
  have h2 : List.dropWhile (fun c => c != 'T')
      ('T' :: (fixedDigits 2 t.hour ++ [':'] ++ fixedDigits 2 t.minute ++ [':'] ++
        fixedDigits 2 (⌊t.second⌋).toNat)) =
      'T' :: (fixedDigits 2 t.hour ++ [':'] ++ fixedDigits 2 t.minute ++ [':'] ++
        fixedDigits 2 (⌊t.second⌋).toNat) := by
    simp [List.dropWhile_cons]
  rw [h1, h2]
  simp only [List.append_nil, List.drop_succ_cons, List.drop_zero, List.filter_append]
  rw [filter_ne_of_all_digit '-' (by decide) _ (fixedDigits_all_digit 4 t.year),
      filter_ne_of_all_digit '-' (by decide) _ (fixedDigits_all_digit 2 t.month),
      filter_ne_of_all_digit '-' (by decide) _ (fixedDigits_all_digit 2 t.day),
      filter_ne_of_all_digit ':' (by decide) _ (fixedDigits_all_digit 2 t.hour),
      filter_ne_of_all_digit ':' (by decide) _ (fixedDigits_all_digit 2 t.minute),
      filter_ne_of_all_digit ':' (by decide) _
        (fixedDigits_all_digit 2 (⌊t.second⌋).toNat)]
  have hdash : List.filter (fun c => c != '-') ['-'] = [] := by decide
  have hcolon : List.filter (fun c => c != ':') [':'] = [] := by decide
  simp [hdash, hcolon, String.ext_iff]

theorem encodeSample_none : encodeSample none = 0 := by
  have := roundHalfEven_intCast 0
  simpa [encodeSample, nan_to_num] using this

/-! ## Claims -/

/-- C1: a NaN (null) energy sample is emitted as exactly the integer 0: the
sample is replaced by 0.0 (`nan_to_num`) before rounding, the field written
at its matrix position is `formatIntW 6 0`, and the emitted integer is never
the configured exception value (a sentinel distinct from zero). -/
theorem C1_nan_sample_zero (cfg : OutputConfig) (row : List (Option ℚ)) (i : Nat)
    (hnan : row[i]? = some none) (hexc : cfg.exception_value ≠ 0) :
    encodeSample none = 0 ∧
    encodeSample none = roundHalfEven (nan_to_num none) ∧
    (row.map (fun v => formatIntW 6 (encodeSample v)))[i]? = some (formatIntW 6 0) ∧
    (encodeSample none : ℚ) ≠ cfg.exception_value := by
  refine ⟨encodeSample_none, rfl, ?_, ?_⟩
  · rw [List.getElem?_map, hnan]
    simp [encodeSample_none]
  · rw [encodeSample_none]
    push_cast
    exact fun h => hexc h.symm

theorem C1_witness :
    ([some (1 : ℚ), none][1]? = some none ∧ (-99 : ℚ) ≠ 0) ∧
    (encodeSample none = 0 ∧ (encodeSample none : ℚ) ≠ (-99 : ℚ)) := by
  refine ⟨⟨rfl, by norm_num⟩, ?_, ?_⟩
  · exact (C1_nan_sample_zero ⟨-99, "41.41", "WaveDataProject", "1.0", false⟩
      [some 1, none] 1 rfl (by norm_num)).1
  · exact (C1_nan_sample_zero ⟨-99, "41.41", "WaveDataProject", "1.0", false⟩
      [some 1, none] 1 rfl (by norm_num)).2.2.2

/-- C2: a non-NaN value is rounded to the nearest integer with
round-half-to-even semantics: the emitted integer differs from the value by
at most 1/2, an exact half rounds to the even integer, and in particular
2.5 rounds to 2 and 3.5 rounds to 4. -/
theorem C2_round_half_to_even (q : ℚ) :
    encodeSample (some q) = roundHalfEven q ∧
    |(roundHalfEven q : ℚ) - q| ≤ 1 / 2 ∧
    (q - (⌊q⌋ : ℚ) = 1 / 2 → roundHalfEven q % 2 = 0) ∧
    roundHalfEven (5 / 2) = 2 ∧ roundHalfEven (7 / 2) = 4 := by
  refine ⟨rfl, abs_roundHalfEven_sub_le q, roundHalfEven_tie_even q, ?_, ?_⟩ <;>
    norm_num [roundHalfEven]

theorem C2_witness :
    roundHalfEven (5 / 2) = 2 ∧ roundHalfEven (5 / 2) % 2 = 0 :=
  ⟨(C2_round_half_to_even (5 / 2)).2.2.2.1,
   (C2_round_half_to_even (5 / 2)).2.2.1 (by norm_num)⟩

/-- C3: a timestamp formats as `YYYYMMDD.HHMMSS` (dashes and colons stripped,
date and time joined by a period), any sub-second component is discarded by
truncation — the formatted string is unchanged by adding a fraction below one
second — and both `2024-03-15T06:00:30` and `2024-03-15T06:00:30.750` encode
as `20240315.060030`. -/
theorem C3_timestamp_format (y mo d h mi s : Nat) (frac : ℚ)
    (h0 : 0 ≤ frac) (h1 : frac < 1) :
    format_swan_time ⟨y, mo, d, h, mi, (s : ℚ) + frac⟩ =
      (⟨fixedDigits 4 y ++ fixedDigits 2 mo ++ fixedDigits 2 d⟩ : String) ++ "." ++
        ⟨fixedDigits 2 h ++ fixedDigits 2 mi ++ fixedDigits 2 s⟩ ∧
    format_swan_time ⟨y, mo, d, h, mi, (s : ℚ) + frac⟩ =
      format_swan_time ⟨y, mo, d, h, mi, (s : ℚ)⟩ ∧
    format_swan_time ⟨2024, 3, 15, 6, 0, 30⟩ = "20240315.060030" ∧
    format_swan_time ⟨2024, 3, 15, 6, 0, 30 + 3 / 4⟩ = "20240315.060030" := by
  have hfr : ⌊frac⌋ = 0 := Int.floor_eq_zero_iff.2 ⟨h0, h1⟩
  have hfl : ⌊(s : ℚ) + frac⌋ = (s : ℤ) := by
    rw [show ((s : ℚ) + frac) = (((s : ℤ) : ℚ) + frac) by push_cast; ring,
        Int.floor_int_add, hfr, add_zero]
  have hs : (⌊(s : ℚ)⌋).toNat = s := by
    rw [Int.floor_natCast, Int.toNat_natCast]
  have h30 : (⌊(30 : ℚ)⌋).toNat = 30 := by
    rw [show ⌊(30 : ℚ)⌋ = 30 by norm_num]
    decide
  have h30' : (⌊(30 + 3 / 4 : ℚ)⌋).toNat = 30 := by
    rw [show ⌊(30 + 3 / 4 : ℚ)⌋ = 30 by norm_num [Int.floor_eq_iff]]
    decide
  refine ⟨?_, ?_, ?_, ?_⟩
  · rw [format_swan_time_eq]
    simp only [hfl, Int.toNat_natCast]
  · rw [format_swan_time_eq, format_swan_time_eq]
    simp only [hfl, Int.toNat_natCast, hs]
  · rw [format_swan_time_eq]
    simp only [h30]
    decide
  · rw [format_swan_time_eq]
    simp only [h30']
    decide

theorem C3_witness :
    ((0 : ℚ) ≤ 3 / 4 ∧ (3 / 4 : ℚ) < 1) ∧
    format_swan_time ⟨2024, 3, 15, 6, 0, ((30 : Nat) : ℚ) + 3 / 4⟩ =
      format_swan_time ⟨2024, 3, 15, 6, 0, ((30 : Nat) : ℚ)⟩ :=
  ⟨⟨by norm_num, by norm_num⟩,
   (C3_timestamp_format 2024 3 15 6 0 30 (3 / 4) (by norm_num) (by norm_num)).2.1⟩

/-- C4 counterexample: the factor value 1.0 is written as a mantissa with 17
significant digits (`1.0000000000000000e+00`), not 16 as claimed. -/
theorem C4_counterexample : mantissaDigitCount (formatSci 16 1) ≠ 16 := by
  have h := mantissaDigitCount_formatSci 16 1
  omega

/-- C4 (amended): the scalar factor written after the `FACTOR` tag line is
formatted in scientific notation with 16 digits after the decimal point,
i.e. 17 significant digits. -/
theorem C4_factor_sci_digits (ds : SpectralDataset) (t p : Nat) :
    (locBlock ds t p)[1]? = some (formatSci 16 (factorAt ds t p)) ∧
    (locBlock ds t p)[0]? = some "FACTOR" ∧
    mantissaDigitCount (formatSci 16 (factorAt ds t p)) = 17 :=
  ⟨by simp [locBlock], by simp [locBlock], mantissaDigitCount_formatSci 16 _⟩

/-- C5 counterexample: the default exception value −99.0 is written with 5
significant mantissa digits (`-9.9000e+01`), not 4 as claimed. -/
theorem C5_counterexample : mantissaDigitCount (formatSciW 10 4 (-99 : ℚ)) ≠ 4 := by
  have h := mantissaDigitCount_formatSciW 10 4 (-99)
  omega

/-- C5 (amended): the header's quantity block carries the fixed quantity
count 1, and the configured exception value formatted in scientific notation
with 4 digits after the decimal point, i.e. 5 significant digits. -/
theorem C5_quant_block (cfg : OutputConfig) (ds : SpectralDataset) (nloc : Nat) :
    quantCountLine ∈ write_sp2_header cfg ds nloc ∧
    quantCountLine =
      formatIntW 6 1 ++ "                                  number of quantities in table" ∧
    exceptionLine cfg ∈ write_sp2_header cfg ds nloc ∧
    mantissaDigitCount (formatSciW 10 4 cfg.exception_value) = 5 := by
  refine ⟨?_, by decide, ?_, mantissaDigitCount_formatSciW 10 4 _⟩ <;>
    simp [write_sp2_header, quantCountLine, exceptionLine]

theorem formatIntW_length (w : Nat) (n : ℤ) :
    (formatIntW w n).length = max w (intChars n).length := by
  simp only [formatIntW, String.length, padLeft, List.length_append,
    List.length_replicate]
  omega

/-- C8 counterexample: `{:6d}` is a MINIMUM width: the integer 1234567 is
formatted as 7 characters, so not every field is 6 characters wide. -/
theorem C8_counterexample : (formatIntW 6 1234567).length ≠ 6 := by decide

/-- C8 (amended): the energy matrix of a (timestep, location) pair is one
line per frequency row in array order; each line is the row's integers in
array order, joined by single spaces, each right-justified to a minimum
width of 6 characters (wider when the representation needs more). -/
theorem C8_matrix_rows (ds : SpectralDataset) (t p : Nat)
    (row : List (Option ℚ)) (v : ℤ) :
    (locBlock ds t p).drop 2 =
      (List.range ds.frequency.length).map (fun fr => rowLine (energyRow ds t p fr)) ∧
    ((locBlock ds t p).drop 2).length = ds.frequency.length ∧
    rowLine row =
      String.intercalate " " (row.map (fun x => formatIntW 6 (encodeSample x))) ∧
    (row.map (fun x => formatIntW 6 (encodeSample x))).length = row.length ∧
    (formatIntW 6 v).length = max 6 (intChars v).length ∧
    6 ≤ (formatIntW 6 v).length := by
  refine ⟨by simp [locBlock], by simp [locBlock], rfl, by simp, formatIntW_length 6 v, ?_⟩
  rw [formatIntW_length 6 v]
  omega

/-- C9: the conversion is a pure function of the dataset and configuration:
running it twice on identical input with identical config yields identical
output bytes and identical filesystem effects. -/
theorem C9_deterministic (cfg cfg' : OutputConfig) (nc nc' : NCFile)
    (path path' : String) (hcfg : cfg = cfg') (hnc : nc = nc') (hpath : path = path') :
    convert_netcdf_to_sp2 cfg nc path = convert_netcdf_to_sp2 cfg' nc' path' ∧
    sp2Content cfg nc.ds = sp2Content cfg' nc'.ds := by
  subst hcfg
  subst hnc
  subst hpath
  exact ⟨rfl, rfl⟩

theorem C9_witness :
    convert_netcdf_to_sp2 ⟨-99, "41.41", "WaveDataProject", "1.0", false⟩
        ⟨["longitude", "latitude", "frequency", "direction", "energy_density", "time"],
         ⟨[1], [2], [1], [0], [⟨2024, 3, 15, 6, 0, 30⟩], [[[[some 1]]]], none⟩⟩
        "out/esp_a.sp2" =
      convert_netcdf_to_sp2 ⟨-99, "41.41", "WaveDataProject", "1.0", false⟩
        ⟨["longitude", "latitude", "frequency", "direction", "energy_density", "time"],
         ⟨[1], [2], [1], [0], [⟨2024, 3, 15, 6, 0, 30⟩], [[[[some 1]]]], none⟩⟩
        "out/esp_a.sp2" :=
  (C9_deterministic _ _ _ _ _ _ rfl rfl rfl).1

/-- C10: when validation fails, `convert_netcdf_to_sp2` returns before any
filesystem operation: no output directory is created and no file is written. -/
theorem C10_no_output_on_invalid (cfg : OutputConfig) (nc : NCFile) (path : String)
    (h : validate_netcdf nc = false) :
    convert_netcdf_to_sp2 cfg nc path = (false, []) := by
  simp [convert_netcdf_to_sp2, h]

theorem C10_witness :
    validate_netcdf ⟨["longitude"], ⟨[], [], [], [], [], [], none⟩⟩ = false ∧
    convert_netcdf_to_sp2 ⟨-99, "41.41", "WaveDataProject", "1.0", false⟩
        ⟨["longitude"], ⟨[], [], [], [], [], [], none⟩⟩ "out/esp_b.sp2" = (false, []) :=
  ⟨by decide,
   C10_no_output_on_invalid ⟨-99, "41.41", "WaveDataProject", "1.0", false⟩
     ⟨["longitude"], ⟨[], [], [], [], [], [], none⟩⟩ "out/esp_b.sp2" (by decide)⟩

theorem intChars_natCast (n : Nat) : intChars (n : ℤ) = natDigits n := by
  have h : ¬ ((n : ℤ) < 0) := by
    simp
  simp [intChars, h]

/-- Reading the 6-wide count field of `f"{n:6d}" + suffix` recovers `n`
whenever `n` fits in the field. -/
theorem parseIntField_natCount (n : Nat) (suffix : String) (h : n < 10 ^ 6) :
    parseIntField (formatIntW 6 (n : ℤ) ++ suffix) = n := by
  have hlen : (natDigits n).length ≤ 6 :=
    le_trans (natDigits_length_le 6 n h) (by norm_num)
  have hdata : (formatIntW 6 (n : ℤ) ++ suffix).data =
      padLeft 6 (natDigits n) ++ suffix.data := by
    rw [String.data_append]
    simp [formatIntW, intChars_natCast]
  obtain ⟨c, rest, hc⟩ : ∃ c rest, natDigits n = c :: rest := by
    cases hnd : natDigits n with
    | nil => exact absurd hnd (natDigits_ne_nil n)
    | cons c rest => exact ⟨c, rest, rfl⟩
  have hcdig : c.isDigit = true := natDigits_all_digit n c (by rw [hc]; simp)
  have hpad_len : (padLeft 6 (natDigits n)).length = 6 := by
    simp only [padLeft, List.length_append, List.length_replicate]
    omega
  unfold parseIntField
  rw [hdata, List.take_left' hpad_len]
  show (if _ then _ else _) = _
  rw [padLeft, dropWhile_append_all]
  · rw [hc, List.dropWhile_cons]
    have hcs : (c == ' ') = false := by
      rw [beq_eq_false_iff_ne]
      exact isDigit_ne_of hcdig (by decide)
    rw [hcs]
    simp only [Bool.false_eq_true, if_false]
    have hne : ¬ ((c :: rest).head? = some '-') := by
      simp only [List.head?_cons, Option.some.injEq]
      exact isDigit_ne_of hcdig (by decide)
    rw [if_neg hne, ← hc, valOfDigits_natDigits]
  · intro x hx
    rw [List.eq_of_mem_replicate hx]
    decide

/-- C7: the location, frequency and direction counts the header writes are
exactly the input array lengths (the 6-wide fields parse back to them), the
count lines appear in the header, and each timestep's body holds exactly one
data block (FACTOR tag, factor, energy matrix) per location. -/
theorem C7_counts_match (cfg : OutputConfig) (ds : SpectralDataset) (t : Nat)
    (hL : ds.longitude.length < 10 ^ 6) (hF : ds.frequency.length < 10 ^ 6)
    (hD : ds.direction.length < 10 ^ 6) :
    locCountLine ds.longitude.length ∈ write_sp2_header cfg ds ds.longitude.length ∧
    parseIntField (locCountLine ds.longitude.length) = ds.longitude.length ∧
    freqCountLine ds.frequency.length ∈ write_sp2_header cfg ds ds.longitude.length ∧
    parseIntField (freqCountLine ds.frequency.length) = ds.frequency.length ∧
    dirCountLine ds.direction.length ∈ write_sp2_header cfg ds ds.longitude.length ∧
    parseIntField (dirCountLine ds.direction.length) = ds.direction.length ∧
    (locBlocks ds t).length = ds.longitude.length ∧
    timeBlock ds t = timeLine (ds.time.getD t default) :: (locBlocks ds t).flatten := by
  refine ⟨?_, parseIntField_natCount _ _ hL, ?_, parseIntField_natCount _ _ hF,
    ?_, parseIntField_natCount _ _ hD, by simp [locBlocks], rfl⟩ <;>
    simp [write_sp2_header]

theorem C7_witness :
    ((1 : Nat) < 10 ^ 6 ∧ (2 : Nat) < 10 ^ 6 ∧ (3 : Nat) < 10 ^ 6) ∧
    parseIntField (locCountLine 1) = 1 ∧
    parseIntField (freqCountLine 2) = 2 ∧
    parseIntField (dirCountLine 3) = 3 ∧
    (locBlocks ⟨[7], [8], [1/10, 1/5], [0, 90, 180], [⟨2024, 3, 15, 0, 0, 0⟩],
        [[[[some 1, some 2, none], [none, some (5/2), some 3]]]], none⟩ 0).length = 1 := by
  refine ⟨⟨by decide, by decide, by decide⟩, ?_, ?_, ?_, ?_⟩
  · exact (C7_counts_match ⟨-99, "41.41", "WaveDataProject", "1.0", false⟩
      ⟨[7], [8], [1/10, 1/5], [0, 90, 180], [⟨2024, 3, 15, 0, 0, 0⟩],
        [[[[some 1, some 2, none], [none, some (5/2), some 3]]]], none⟩ 0
      (by decide) (by decide) (by decide)).2.1
  · exact (C7_counts_match ⟨-99, "41.41", "WaveDataProject", "1.0", false⟩
      ⟨[7], [8], [1/10, 1/5], [0, 90, 180], [⟨2024, 3, 15, 0, 0, 0⟩],
        [[[[some 1, some 2, none], [none, some (5/2), some 3]]]], none⟩ 0
      (by decide) (by decide) (by decide)).2.2.2.1
  · exact (C7_counts_match ⟨-99, "41.41", "WaveDataProject", "1.0", false⟩
      ⟨[7], [8], [1/10, 1/5], [0, 90, 180], [⟨2024, 3, 15, 0, 0, 0⟩],
        [[[[some 1, some 2, none], [none, some (5/2), some 3]]]], none⟩ 0
      (by decide) (by decide) (by decide)).2.2.2.2.2.1
  · exact (C7_counts_match ⟨-99, "41.41", "WaveDataProject", "1.0", false⟩
      ⟨[7], [8], [1/10, 1/5], [0, 90, 180], [⟨2024, 3, 15, 0, 0, 0⟩],
        [[[[some 1, some 2, none], [none, some (5/2), some 3]]]], none⟩ 0
      (by decide) (by decide) (by decide)).2.2.2.2.2.2.1

theorem getD_of_getElem? {α : Type} {l : List α} {i : Nat} {x : α} (d : α)
    (h : l[i]? = some x) : l.getD i d = x := by
  rw [List.getD_eq_getElem?_getD, h]
  rfl

theorem factorAt?_some {ds : SpectralDataset} {t p : Nat} {q : ℚ}
    (h : factorAt? ds t p = some q) : factorAt ds t p = q := by
  cases hf : ds.factor with
  | none =>
      simp only [factorAt?, hf, Option.some.injEq] at h
      simp [factorAt, hf, h]
  | some fs =>
      simp only [factorAt?, hf] at h
      rcases Option.bind_eq_some.1 h with ⟨r, hr, hq⟩
      simp only [factorAt, hf]
      rw [getD_of_getElem? [] hr, getD_of_getElem? 0 hq]

theorem energyRow?_some {ds : SpectralDataset} {t p fr : Nat}
    {row : List (Option ℚ)} (h : energyRow? ds t p fr = some row) :
    energyRow ds t p fr = row := by
  simp only [energyRow?] at h
  rcases Option.bind_eq_some.1 h with ⟨a, ha, h2⟩
  rcases Option.bind_eq_some.1 h2 with ⟨b, hb, h3⟩
  simp only [energyRow]
  rw [getD_of_getElem? [] ha, getD_of_getElem? [] hb, getD_of_getElem? [] h3]

theorem writeRows_ok (ds : SpectralDataset) (t p : Nat) (frs : List Nat)
    (h : ∀ fr ∈ frs, (energyRow? ds t p fr).isSome = true) :
    writeRows ds t p frs =
      (true, frs.map (fun fr => rowLine (energyRow ds t p fr))) := by
  induction frs with
  | nil => rfl
  | cons fr frs ih =>
      obtain ⟨row, hrow⟩ := Option.isSome_iff_exists.1 (h fr (by simp))
      simp only [writeRows, hrow, List.map_cons]
      rw [ih (fun x hx => h x (by simp [hx])), energyRow?_some hrow]

theorem writeLoc_ok (ds : SpectralDataset) (t p : Nat)
    (hf : (factorAt? ds t p).isSome = true)
    (he : ∀ fr ∈ List.range ds.frequency.length,
      (energyRow? ds t p fr).isSome = true) :
    writeLoc ds t p = (true, locBlock ds t p) := by
  obtain ⟨q, hq⟩ := Option.isSome_iff_exists.1 hf
  simp only [writeLoc, hq]
  rw [writeRows_ok ds t p _ he]
  simp [locBlock, factorAt?_some hq]

theorem writeLocs_ok (ds : SpectralDataset) (t : Nat) (ps : List Nat)
    (h : ∀ p ∈ ps, writeLoc ds t p = (true, locBlock ds t p)) :
    writeLocs ds t ps = (true, (ps.map (fun p => locBlock ds t p)).flatten) := by
  induction ps with
  | nil => rfl
  | cons p ps ih =>
      simp only [writeLocs, h p (by simp), List.map_cons, List.flatten_cons]
      rw [ih (fun x hx => h x (by simp [hx]))]
      simp

theorem writeTimes_ok (ds : SpectralDataset) (ts : List Nat)
    (h : ∀ t ∈ ts, writeLocs ds t (List.range ds.longitude.length) =
      (true, (locBlocks ds t).flatten)) :
    writeTimes ds ts = (true, (ts.map (fun t => timeBlock ds t)).flatten) := by
  induction ts with
  | nil => rfl
  | cons t ts ih =>
      simp only [writeTimes, h t (by simp), List.map_cons, List.flatten_cons]
      rw [ih (fun x hx => h x (by simp [hx]))]
      simp [timeBlock]

theorem shapeOk_spec {ds : SpectralDataset} (h : shapeOk ds = true) :
    ∀ t ∈ List.range ds.time.length, ∀ p ∈ List.range ds.longitude.length,
      (factorAt? ds t p).isSome = true ∧
      ∀ fr ∈ List.range ds.frequency.length,
        (energyRow? ds t p fr).isSome = true := by
  simp only [shapeOk, List.all_eq_true, Bool.and_eq_true] at h
  exact h

/-- A shape-consistent dataset is written to completion: the write loop
succeeds and emits exactly the full encoding. -/
theorem sp2LinesOut_ok (cfg : OutputConfig) (ds : SpectralDataset)
    (h : shapeOk ds = true) : sp2LinesOut cfg ds = (true, sp2Lines cfg ds) := by
  have hs := shapeOk_spec h
  have hT : writeTimes ds (List.range ds.time.length) =
      (true, ((List.range ds.time.length).map (fun t => timeBlock ds t)).flatten) := by
    apply writeTimes_ok
    intro t ht
    have : writeLocs ds t (List.range ds.longitude.length) =
        (true, ((List.range ds.longitude.length).map
          (fun p => locBlock ds t p)).flatten) := by
      apply writeLocs_ok
      intro p hp
      exact writeLoc_ok ds t p ((hs t ht p hp).1) ((hs t ht p hp).2)
    rw [this]
    simp [locBlocks]
  simp [sp2LinesOut, hT, sp2Lines]

/-- A validated, shape-consistent file converts to full success: directory
created, complete file written, `True` returned. -/
theorem convert_ok (cfg : OutputConfig) (nc : NCFile) (path : String)
    (hv : validate_netcdf nc = true) (hs : shapeOk nc.ds = true) :
    convert_netcdf_to_sp2 cfg nc path =
      (true, [FSEffect.mkdir (dirOf path),
              FSEffect.writeFile path (sp2Content cfg nc.ds)]) := by
  simp [convert_netcdf_to_sp2, hv, sp2LinesOut_ok cfg nc.ds hs, sp2Content]

/-- C6: a dataset missing a required field fails validation with the missing
field named (the reported variable is a required one absent from the file),
the file is skipped with no conversion output, and the batch is not aborted:
the batch outcome is exactly that of the remaining files, and every valid
file — one that passes field validation and whose arrays are shape-consistent,
so the write loop raises no exception — in the same batch still converts
successfully to a complete output file. -/
theorem C6_missing_field_skipped (cfg : OutputConfig) (odir : String)
    (pre post : List ConvFile) (bad : ConvFile) (v : String)
    (hmiss : firstMissing bad.nc = some v) :
    (v ∈ required_vars ∧ bad.nc.vars.contains v = false) ∧
    convert_netcdf_to_sp2 cfg bad.nc (outPath odir bad.name) = (false, []) ∧
    process_batch cfg odir (pre ++ bad :: post) =
      ((process_batch cfg odir pre).1 + (process_batch cfg odir post).1,
        (process_batch cfg odir pre).2 ++ (process_batch cfg odir post).2) ∧
    (∀ good ∈ pre ++ bad :: post, validate_netcdf good.nc = true →
      shapeOk good.nc.ds = true →
      convert_netcdf_to_sp2 cfg good.nc (outPath odir good.name) =
        (true, [FSEffect.mkdir (dirOf (outPath odir good.name)),
                FSEffect.writeFile (outPath odir good.name)
                  (sp2Content cfg good.nc.ds)])) := by
  have hval : validate_netcdf bad.nc = false := by
    simp [validate_netcdf, hmiss]
  have hbad : convert_netcdf_to_sp2 cfg bad.nc (outPath odir bad.name) = (false, []) := by
    simp [convert_netcdf_to_sp2, hval]
  have hfind := hmiss
  rw [firstMissing] at hfind
  refine ⟨⟨List.mem_of_find?_eq_some hfind, ?_⟩, hbad, ?_, ?_⟩
  · have := List.find?_some hfind
    simpa using this
  · simp [process_batch, List.map_append, List.filter_append, hbad,
      List.flatten_append]
  · intro good hg hgval hgshape
    exact convert_ok cfg good.nc (outPath odir good.name) hgval hgshape

theorem C6_witness :
    firstMissing ⟨["longitude", "latitude", "frequency", "energy_density", "time"],
      ⟨[], [], [], [], [], [], none⟩⟩ = some "direction" ∧
    ("direction" ∈ required_vars ∧
      (["longitude", "latitude", "frequency", "energy_density",
        "time"] : List String).contains "direction" = false) ∧
    convert_netcdf_to_sp2 ⟨-99, "41.41", "WaveDataProject", "1.0", false⟩
      ⟨["longitude", "latitude", "frequency", "energy_density", "time"],
        ⟨[], [], [], [], [], [], none⟩⟩ (outPath "out" "esp_bad.nc") = (false, []) ∧
    convert_netcdf_to_sp2 ⟨-99, "41.41", "WaveDataProject", "1.0", false⟩
      ⟨["longitude", "latitude", "frequency", "direction", "energy_density", "time"],
        ⟨[1], [2], [1], [0], [⟨2024, 3, 15, 6, 0, 30⟩], [[[[some 1]]]], none⟩⟩
      (outPath "out" "esp_good.nc") =
      (true, [FSEffect.mkdir (dirOf (outPath "out" "esp_good.nc")),
              FSEffect.writeFile (outPath "out" "esp_good.nc")
                (sp2Content ⟨-99, "41.41", "WaveDataProject", "1.0", false⟩
                  ⟨[1], [2], [1], [0], [⟨2024, 3, 15, 6, 0, 30⟩],
                    [[[[some 1]]]], none⟩)]) := by
  refine ⟨by decide, ?_, ?_, ?_⟩
  · exact (C6_missing_field_skipped ⟨-99, "41.41", "WaveDataProject", "1.0", false⟩
      "out" [] [] ⟨"esp_bad.nc", ⟨["longitude", "latitude", "frequency",
        "energy_density", "time"], ⟨[], [], [], [], [], [], none⟩⟩⟩
      "direction" (by decide)).1
  · exact (C6_missing_field_skipped ⟨-99, "41.41", "WaveDataProject", "1.0", false⟩
      "out" [] [] ⟨"esp_bad.nc", ⟨["longitude", "latitude", "frequency",
        "energy_density", "time"], ⟨[], [], [], [], [], [], none⟩⟩⟩
      "direction" (by decide)).2.1
  · exact (C6_missing_field_skipped ⟨-99, "41.41", "WaveDataProject", "1.0", false⟩
      "out" []
      [⟨"esp_good.nc", ⟨["longitude", "latitude", "frequency", "direction",
        "energy_density", "time"],
        ⟨[1], [2], [1], [0], [⟨2024, 3, 15, 6, 0, 30⟩], [[[[some 1]]]], none⟩⟩⟩]
      ⟨"esp_bad.nc", ⟨["longitude", "latitude", "frequency",
        "energy_density", "time"], ⟨[], [], [], [], [], [], none⟩⟩⟩
      "direction" (by decide)).2.2.2
      ⟨"esp_good.nc", ⟨["longitude", "latitude", "frequency", "direction",
        "energy_density", "time"],
        ⟨[1], [2], [1], [0], [⟨2024, 3, 15, 6, 0, 30⟩], [[[[some 1]]]], none⟩⟩⟩
      (by simp) (by decide) (by decide)

end EAOWS
